import Mathlib

/-!
Verification development for the gemini-api-rotation repository.

The repository is a failover layer over a generative-AI transport:
`gemini_rotate/client.py` holds a rotation controller that, on each
generate call, walks the model roster in consecutive pairs and, within
each pair, walks the credential-bound clients in construction order,
returning the first successful transport response, swallowing the two
recognized transport error classes, propagating any other error, and
raising an aggregate failure after total exhaustion.
`gemini_rotate/utils.py` discovers credentials from the environment.

The definitions below are a shallow embedding of that code. The abstract
content payload and generation config are folded into the transport
function: `t i m` stands for the transport call
`clients[i].aio.models.generate_content(model=m, contents=contents, config=config)`
with the fixed per-call payload, and its result is one of: a response,
a raised ClientError, a raised ServerError, or a raised error of any
other type.
-/

namespace GeminiRotate

/-- Result of a single transport call, mirroring the four possibilities at a
call site of `client.aio.models.generate_content` in `client.py`: a returned
response, a raised `ClientError`, a raised `ServerError`, or a raised
exception of any other type. -/
inductive TransportResult (ρ : Type) where
  | success (r : ρ)
  | clientError (msg : String)
  | serverError (msg : String)
  | otherError (msg : String)
deriving DecidableEq, Repr

/-- The transport result is one of the two classes caught by
`except (ClientError, ServerError)` in `client.py`. -/
def IsRecognized {ρ : Type} (res : TransportResult ρ) : Prop :=
  (∃ m, res = TransportResult.clientError m) ∨ (∃ m, res = TransportResult.serverError m)

/-- A credential-bound client: `genai.Client(api_key=key)` in
`GeminiRotationClient.__init__`. The handle is abstract; we record the
credential it is bound to. -/
structure Client where
  apiKey : String
deriving DecidableEq, Repr

/-- Controller state after construction: `self.api_keys`, `self.clients`,
`self.models` in `GeminiRotationClient.__init__`. -/
structure GeminiRotationClient where
  api_keys : List String
  clients : List Client
  models : List String
deriving DecidableEq, Repr

/-- The pairing of the model roster:
`model_groups = [self.models[i : i + 2] for i in range(0, len(self.models), 2)]`
in `generate_content` (and identically in `generate_content_sync`). -/
def modelGroups : List String → List (List String)
  | [] => []
  | [a] => [[a]]
  | a :: b :: rest => [a, b] :: modelGroups rest

/-- Outcome of one whole `generate_content` call: a returned response,
the `AllClientsFailed` raise carrying `len(self.clients)` and
`len(self.models)`, or an uncaught exception propagating out. -/
inductive GenOutcome (ρ : Type) where
  | success (r : ρ)
  | aggregateFailure (clientCount modelCount : Nat)
  | propagated (msg : String)
deriving DecidableEq, Repr

/-- Inner loop of `generate_content`: `for client_idx, client in enumerate(self.clients)`
for one model group, with `primary` the group head and `secondary` the optional
second element. Returns the transport calls made, as (model, client index)
pairs in call order, and `some` terminal outcome when the loop body executed a
`return` or let an unrecognized exception escape; `none` means the loop ran to
completion and control falls through to the next model group. The secondary
attempt is guarded by `if secondary_model:` in the source, Python truthiness,
so a `None` secondary and an empty-string secondary are both skipped. -/
def tryPair {ρ : Type} (t : Nat → String → TransportResult ρ)
    (primary : String) (secondary : Option String) :
    List Nat → List (String × Nat) × Option (GenOutcome ρ)
  | [] => ([], none)
  | i :: rest =>
    match t i primary with
    | TransportResult.success r => ([(primary, i)], some (GenOutcome.success r))
    | TransportResult.otherError m => ([(primary, i)], some (GenOutcome.propagated m))
    | TransportResult.clientError _ | TransportResult.serverError _ =>
      match secondary with
      | some sec =>
        if sec = "" then
          let tail := tryPair t primary secondary rest
          ((primary, i) :: tail.1, tail.2)
        else
          match t i sec with
          | TransportResult.success r =>
            ([(primary, i), (sec, i)], some (GenOutcome.success r))
          | TransportResult.otherError m =>
            ([(primary, i), (sec, i)], some (GenOutcome.propagated m))
          | TransportResult.clientError _ | TransportResult.serverError _ =>
            let tail := tryPair t primary secondary rest
            ((primary, i) :: (sec, i) :: tail.1, tail.2)
      | none =>
        let tail := tryPair t primary secondary rest
        ((primary, i) :: tail.1, tail.2)

/-- Outer loop of `generate_content`: `for group_idx, group in enumerate(model_groups)`.
`idxs` is the fixed list of client indices. An empty group never occurs in the
output of `modelGroups`; on it the Python subscription `group[0]` would raise,
and this transcription skips it (the branch is dead, see
`modelGroups_ne_nil`). -/
def tryGroups {ρ : Type} (t : Nat → String → TransportResult ρ) (idxs : List Nat) :
    List (List String) → List (String × Nat) × Option (GenOutcome ρ)
  | [] => ([], none)
  | g :: gs =>
    match g with
    | [] => tryGroups t idxs gs
    | primary :: restg =>
      let res := tryPair t primary restg.head? idxs
      match res.2 with
      | some o => (res.1, some o)
      | none =>
        let tail := tryGroups t idxs gs
        (res.1 ++ tail.1, tail.2)

/-- The method `GeminiRotationClient.generate_content`, instrumented with the list of
transport calls it performs, in order, as (model, client index) pairs.
After the two nested loops finish without returning, the method raises
`AllClientsFailed(f"All {len(self.clients)} agents failed across all {len(self.models)} models.")`. -/
def generate_content {ρ : Type} (c : GeminiRotationClient)
    (t : Nat → String → TransportResult ρ) :
    List (String × Nat) × GenOutcome ρ :=
  let res := tryGroups t (List.range c.clients.length) (modelGroups c.models)
  match res.2 with
  | some o => (res.1, o)
  | none => (res.1, GenOutcome.aggregateFailure c.clients.length c.models.length)

/-- Inner loop of `generate_content_sync`; the body is letter for letter the
loop body of `tryPair`, since the sync source differs from the async source
only in calling `client.models.generate_content` without `await` instead of
`client.aio.models.generate_content` with `await`. -/
def tryPairSync {ρ : Type} (t : Nat → String → TransportResult ρ)
    (primary : String) (secondary : Option String) :
    List Nat → List (String × Nat) × Option (GenOutcome ρ)
  | [] => ([], none)
  | i :: rest =>
    match t i primary with
    | TransportResult.success r => ([(primary, i)], some (GenOutcome.success r))
    | TransportResult.otherError m => ([(primary, i)], some (GenOutcome.propagated m))
    | TransportResult.clientError _ | TransportResult.serverError _ =>
      match secondary with
      | some sec =>
        if sec = "" then
          let tail := tryPairSync t primary secondary rest
          ((primary, i) :: tail.1, tail.2)
        else
          match t i sec with
          | TransportResult.success r =>
            ([(primary, i), (sec, i)], some (GenOutcome.success r))
          | TransportResult.otherError m =>
            ([(primary, i), (sec, i)], some (GenOutcome.propagated m))
          | TransportResult.clientError _ | TransportResult.serverError _ =>
            let tail := tryPairSync t primary secondary rest
            ((primary, i) :: (sec, i) :: tail.1, tail.2)
      | none =>
        let tail := tryPairSync t primary secondary rest
        ((primary, i) :: tail.1, tail.2)

/-- Outer loop of `generate_content_sync`, transcribed from the sync source. -/
def tryGroupsSync {ρ : Type} (t : Nat → String → TransportResult ρ) (idxs : List Nat) :
    List (List String) → List (String × Nat) × Option (GenOutcome ρ)
  | [] => ([], none)
  | g :: gs =>
    match g with
    | [] => tryGroupsSync t idxs gs
    | primary :: restg =>
      let res := tryPairSync t primary restg.head? idxs
      match res.2 with
      | some o => (res.1, some o)
      | none =>
        let tail := tryGroupsSync t idxs gs
        (res.1 ++ tail.1, tail.2)

/-- The method `GeminiRotationClient.generate_content_sync`, instrumented with the list of
transport calls, transcribed from the sync source. -/
def generate_content_sync {ρ : Type} (c : GeminiRotationClient)
    (t : Nat → String → TransportResult ρ) :
    List (String × Nat) × GenOutcome ρ :=
  let res := tryGroupsSync t (List.range c.clients.length) (modelGroups c.models)
  match res.2 with
  | some o => (res.1, o)
  | none => (res.1, GenOutcome.aggregateFailure c.clients.length c.models.length)

/-!
Credential discovery, transcribed from `utils.get_gemini_api_keys`.

The environment is modelled by the values of the variables the function
reads: `GEMINI_API_KEY` and the numbered family `GEMINI_API_KEY_1`,
`GEMINI_API_KEY_2`, …; `none` stands for an unset variable, and an
environment sets only finitely many numbered keys, so those are held in
a list indexed from 1.
-/

/-- The environment variables read by `get_gemini_api_keys`: `singleKey` is
`GEMINI_API_KEY`; `numberedKeys` element `i` (0-based) is `GEMINI_API_KEY_{i+1}`,
and every numbered variable beyond the list is unset. -/
structure Env where
  singleKey : Option String
  numberedKeys : List (Option String)

/-- The `while True` loop of `get_gemini_api_keys`: read `GEMINI_API_KEY_{i}`
from `i = 1` upward, append while the value is truthy (set and non-empty),
break at the first falsy value. -/
def collectNumbered : List (Option String) → List String
  | [] => []
  | o :: rest =>
    match o with
    | some k => if k = "" then [] else k :: collectNumbered rest
    | none => []

/-- The ordered credential values gathered by `get_gemini_api_keys` before
deduplication: `GEMINI_API_KEY` first when truthy, then the numbered prefix,
then the comprehension `[k for k in keys if k]` filtering falsy entries. -/
def rawKeys (env : Env) : List String :=
  let keys :=
    (match env.singleKey with
     | some k => if k = "" then [] else [k]
     | none => []) ++ collectNumbered env.numberedKeys
  keys.filter (fun k => ¬ k = "")

/-- The function `f` behaves like the Python expression `list(set(xs))` for some run of the
interpreter: the result is duplicate-free and holds exactly the elements of
`xs`. CPython leaves the iteration order of a `set` unspecified (string hashes
are randomized per process), so the embedding quantifies over every `f`
satisfying this contract rather than fixing one order. -/
def IsSetLike (f : List String → List String) : Prop :=
  ∀ xs : List String, (f xs).Nodup ∧ ∀ a, a ∈ f xs ↔ a ∈ xs

/-- Transcription of `utils.get_gemini_api_keys`, parametrized by the `list(set(·))`
reordering `f`: `unique_keys = list(set([k for k in keys if k]))`. -/
def get_gemini_api_keys (env : Env) (f : List String → List String) : List String :=
  f (rawKeys env)

/-- The construction failure of `GeminiRotationClient.__init__`: the
`ValueError("No Gemini API keys found in environment variables.")` raised when
no credential was discovered — the `ConfigurationError` of the specification. -/
inductive ConfigError where
  | configurationError
deriving DecidableEq, Repr

/-- Transcription of `GeminiRotationClient.__init__`, parametrized by the `list(set(·))`
reordering `f` and by the model roster `roster` returned by the discovery
collaborator `get_gemini_models()` (out of the rotation core; the controller
stores its result unchanged in `self.models`). Mirrors:
`self.api_keys = get_gemini_api_keys()`; raise on empty;
`self.clients = [genai.Client(api_key=key) for key in self.api_keys]`;
`self.models = get_gemini_models()`. -/
def init (env : Env) (f : List String → List String) (roster : List String) :
    Except ConfigError GeminiRotationClient :=
  let apiKeys := get_gemini_api_keys env f
  if apiKeys = [] then Except.error ConfigError.configurationError
  else Except.ok { api_keys := apiKeys, clients := apiKeys.map Client.mk, models := roster }

/-!
Error-message normalization, transcribed from the helper
`client._format_error`. The Python function takes the string form of the
caught exception, runs the anchored DOTALL search for group one of decimal
digits, one or more whitespace characters, group two of capital letters and
underscores, a literal dot, one or more whitespace characters, and group
three holding the rest; on a match it tries `ast.literal_eval` on group
three inside a try block with a bare except, and when the result is a
dictionary with an error entry it returns the digits, the status token, a
dot and the extracted message (with a fallback text when the message entry
is absent); on every other path it returns the input string unchanged.

The regex is anchored at both ends and each character class is disjoint
from its successor, so the greedy match is the maximal-munch scan below;
the digit and whitespace classes are embedded as their exact codepoint
tables, so the matcher agrees with the source pattern on every string.
`ast.literal_eval` is modelled by a parser for strings, integers, booleans,
`None`, lists and dictionaries that is exact on success: every input it
accepts evaluates in Python to the same value. Literal forms outside this
subset (floats, complex numbers, tuples, sets, bytes, raw, concatenated or
triple-quoted strings, underscored digits, named or surrogate character
escapes) are reported as parse failures; because the true parser accepts
some of those, the unchanged-on-parse-failure property is stated and proved
generically over the parser (`format_errorWith`), which covers the source
behavior, while the claims about successful extraction use the embedded
parser, whose successes coincide with the source.
-/

/-- Codepoints the whitespace class of the pattern matches, enumerated
exhaustively from the runtime regex engine: the ASCII whitespace and
separator controls and the Unicode space, line and paragraph separators. -/
def spaceCodes : List Nat :=
  [9, 10, 11, 12, 13, 28, 29, 30, 31, 32, 133, 160, 5760, 8192, 8193, 8194,
   8195, 8196, 8197, 8198, 8199, 8200, 8201, 8202, 8232, 8233, 8239, 8287,
   12288]

/-- Membership in the whitespace class of the pattern. -/
def pyIsSpace (c : Char) : Bool := spaceCodes.contains c.toNat

/-- Codepoint ranges the digit class of the pattern matches — the Unicode
decimal digits — enumerated exhaustively from the runtime regex engine. -/
def digitRanges : List (Nat × Nat) :=
  [(48, 57), (1632, 1641), (1776, 1785), (1984, 1993), (2406, 2415),
   (2534, 2543), (2662, 2671), (2790, 2799), (2918, 2927), (3046, 3055),
   (3174, 3183), (3302, 3311), (3430, 3439), (3558, 3567), (3664, 3673),
   (3792, 3801), (3872, 3881), (4160, 4169), (4240, 4249), (6112, 6121),
   (6160, 6169), (6470, 6479), (6608, 6617), (6784, 6793), (6800, 6809),
   (6992, 7001), (7088, 7097), (7232, 7241), (7248, 7257), (42528, 42537),
   (43216, 43225), (43264, 43273), (43472, 43481), (43504, 43513),
   (43600, 43609), (44016, 44025), (65296, 65305), (66720, 66729),
   (68912, 68921), (69734, 69743), (69872, 69881), (69942, 69951),
   (70096, 70105), (70384, 70393), (70736, 70745), (70864, 70873),
   (71248, 71257), (71360, 71369), (71472, 71481), (71904, 71913),
   (72016, 72025), (72784, 72793), (73040, 73049), (73120, 73129),
   (92768, 92777), (92864, 92873), (93008, 93017), (120782, 120831),
   (123200, 123209), (123632, 123641), (125264, 125273), (130032, 130041)]

/-- Membership in the digit class of the pattern. -/
def pyIsDigit (c : Char) : Bool :=
  digitRanges.any (fun r => decide (r.1 ≤ c.toNat) && decide (c.toNat ≤ r.2))

/-- The `[A-Z_]` character class. -/
def isUpperUnderscore (c : Char) : Bool :=
  ('A' ≤ c && c ≤ 'Z') || c = '_'

/-- The anchored DOTALL search of `_format_error`, for one group of digits,
inner whitespace, one group of capitals and underscores, a dot, inner
whitespace, and a final group taking the rest: on a match, the three groups
(code, status token, details payload). The digit and whitespace classes are
the exact code tables above, so match and non-match agree with the source
pattern on every string. -/
def matchErrorPattern (s : List Char) : Option (String × String × String) :=
  let p1 := s.span pyIsDigit
  if p1.1 = [] then none else
  let p2 := p1.2.span pyIsSpace
  if p2.1 = [] then none else
  let p3 := p2.2.span isUpperUnderscore
  if p3.1 = [] then none else
  match p3.2 with
  | [] => none
  | dot :: r4 =>
    if dot = '.' then
      let p5 := r4.span pyIsSpace
      if p5.1 = [] then none
      else some (p1.1.asString, p3.1.asString, p5.2.asString)
    else none

/-- A Python literal value, the subset of values `ast.literal_eval` can
produce that the embedding models. -/
inductive PyVal where
  | str (s : String)
  | int (n : Int)
  | bool (b : Bool)
  | none
  | list (xs : List PyVal)
  | dict (entries : List (PyVal × PyVal))

mutual

/-- Equality on modelled Python values as dictionary key lookup uses it:
structural, except that booleans equal their integer values as in Python. -/
def pyEq : PyVal → PyVal → Bool
  | PyVal.str a, PyVal.str b => a = b
  | PyVal.int a, PyVal.int b => a = b
  | PyVal.bool a, PyVal.bool b => a = b
  | PyVal.int a, PyVal.bool b => a = (if b then (1 : Int) else 0)
  | PyVal.bool a, PyVal.int b => (if a then (1 : Int) else 0) = b
  | PyVal.none, PyVal.none => true
  | PyVal.list a, PyVal.list b => pyEqList a b
  | PyVal.dict a, PyVal.dict b => pyEqEntries a b
  | _, _ => false

def pyEqList : List PyVal → List PyVal → Bool
  | [], [] => true
  | a :: as, b :: bs => pyEq a b && pyEqList as bs
  | _, _ => false

def pyEqEntries : List (PyVal × PyVal) → List (PyVal × PyVal) → Bool
  | [], [] => true
  | (k1, v1) :: as, (k2, v2) :: bs => pyEq k1 k2 && pyEq v1 v2 && pyEqEntries as bs
  | _, _ => false

end

/-- Value of one hexadecimal digit. -/
def hexVal (c : Char) : Option Nat :=
  if '0' ≤ c ∧ c ≤ '9' then some (c.toNat - 48)
  else if 'a' ≤ c ∧ c ≤ 'f' then some (c.toNat - 87)
  else if 'A' ≤ c ∧ c ≤ 'F' then some (c.toNat - 55)
  else none

/-- Read exactly `k` hexadecimal digits into an accumulator. -/
def readHex : Nat → Nat → List Char → Option (Nat × List Char)
  | 0, acc, cs => some (acc, cs)
  | Nat.succ k, acc, cs =>
    match cs with
    | [] => none
    | c :: r =>
      match hexVal c with
      | some v => readHex k (acc * 16 + v) r
      | none => none

/-- An octal digit. -/
def octDigit (c : Char) : Bool := '0' ≤ c && c ≤ '7'

/-- Read greedily up to `k` further octal digits into an accumulator. -/
def readOct : Nat → Nat → List Char → Nat × List Char
  | 0, acc, cs => (acc, cs)
  | Nat.succ k, acc, cs =>
    match cs with
    | c :: r => if octDigit c then readOct k (acc * 8 + (c.toNat - 48)) r else (acc, cs)
    | [] => (acc, cs)

/-- The character of a codepoint, when it is a valid scalar value. Python
strings also admit lone surrogates, which this formalization of strings
cannot carry; a surrogate escape is reported as a parse failure. -/
def mkChar (n : Nat) : Option Char :=
  if n.isValidChar then some (Char.ofNat n) else none

/-- Body of a quoted Python string literal with closing quote `q`: returns
the decoded characters and the input after the closing quote, decoding
escapes the way the source tokenizer does: the single-character escapes, a
backslash before a line break joining lines, octal escapes of up to three
digits, and hex and Unicode escapes of exactly two, four or eight digits
(malformed ones are errors). A raw line break inside the literal is an
error, as in Python; an unknown escape keeps the backslash, as in Python.
Named character escapes would need the Unicode name database and are
reported as parse failures. The fuel bounds recursion and exceeds what any
input of the supplied length can consume. -/
def parseStrBody : Nat → Char → List Char → Option (List Char × List Char)
  | 0, _, _ => none
  | Nat.succ fuel, q, cs =>
    match cs with
    | [] => none
    | c :: rest =>
      if c = q then some ([], rest)
      else if c = '\n' ∨ c = '\r' then none
      else if c = '\\' then
        match rest with
        | [] => none
        | e :: rest2 =>
          if e = '\n' then parseStrBody fuel q rest2
          else if e = '\r' then
            match rest2 with
            | '\n' :: rest3 => parseStrBody fuel q rest3
            | _ => parseStrBody fuel q rest2
          else if e = 'x' then
            match readHex 2 0 rest2 with
            | some (n, rest3) =>
              match mkChar n with
              | some ch => (parseStrBody fuel q rest3).map (fun pr => (ch :: pr.1, pr.2))
              | none => none
            | none => none
          else if e = 'u' then
            match readHex 4 0 rest2 with
            | some (n, rest3) =>
              match mkChar n with
              | some ch => (parseStrBody fuel q rest3).map (fun pr => (ch :: pr.1, pr.2))
              | none => none
            | none => none
          else if e = 'U' then
            match readHex 8 0 rest2 with
            | some (n, rest3) =>
              match mkChar n with
              | some ch => (parseStrBody fuel q rest3).map (fun pr => (ch :: pr.1, pr.2))
              | none => none
            | none => none
          else if e = 'N' then none
          else if octDigit e then
            match readOct 2 (e.toNat - 48) rest2 with
            | (n, rest3) =>
              match mkChar n with
              | some ch => (parseStrBody fuel q rest3).map (fun pr => (ch :: pr.1, pr.2))
              | none => none
          else
            let decoded : List Char :=
              if e = 'n' then ['\n']
              else if e = 't' then ['\t']
              else if e = 'r' then ['\r']
              else if e = '\\' then ['\\']
              else if e = '\x27' then ['\x27']
              else if e = '"' then ['"']
              else if e = 'a' then ['\x07']
              else if e = 'b' then ['\x08']
              else if e = 'f' then ['\x0c']
              else if e = 'v' then ['\x0b']
              else ['\\', e]
            (parseStrBody fuel q rest2).map (fun pr => (decoded ++ pr.1, pr.2))
      else
        (parseStrBody fuel q rest).map (fun pr => (c :: pr.1, pr.2))

/-- Decimal digits to a natural number. -/
def digitsToNat (cs : List Char) : Nat :=
  cs.foldl (fun acc c => acc * 10 + (c.toNat - 48)) 0

/-- Python decimal integer literals: no leading zero unless every digit is
zero. Underscored digits, other bases, floats and complex numbers are not in
the modelled subset and fall to the parse-failure path. -/
def decDigitsOk (ds : List Char) : Bool :=
  match ds with
  | '0' :: rest => rest.all (fun c => c = '0')
  | _ => true

/-- An integer literal with optional sign. -/
def parseIntLit (cs : List Char) : Option (PyVal × List Char) :=
  match cs with
  | '-' :: rest =>
    let d := rest.span Char.isDigit
    if d.1 = [] ∨ ¬ decDigitsOk d.1 then none
    else some (PyVal.int (-(Int.ofNat (digitsToNat d.1))), d.2)
  | '+' :: rest =>
    let d := rest.span Char.isDigit
    if d.1 = [] ∨ ¬ decDigitsOk d.1 then none
    else some (PyVal.int (Int.ofNat (digitsToNat d.1)), d.2)
  | _ =>
    let d := cs.span Char.isDigit
    if d.1 = [] ∨ ¬ decDigitsOk d.1 then none
    else some (PyVal.int (Int.ofNat (digitsToNat d.1)), d.2)

/-- Whitespace the literal parser skips between tokens: space, tab, and the
line breaks of implicit line joining inside brackets. A sound subset of what
the tokenizer accepts (it also takes form feeds and carriage returns, which
the model reports as parse failures). -/
def tokenWs (c : Char) : Bool := c = ' ' || c = '\t' || c = '\n'

/-- Skip inter-token whitespace. -/
def skipWs (cs : List Char) : List Char := cs.dropWhile tokenWs

mutual

/-- One Python literal value: a quoted string, a dictionary, a list, `True`,
`False`, `None`, or an integer. The fuel bounds nesting; `pyLiteralEval`
supplies more fuel than any input of its length can consume. -/
def parseVal : Nat → List Char → Option (PyVal × List Char)
  | 0, _ => none
  | Nat.succ fuel, cs0 =>
    let cs := skipWs cs0
    match cs with
    | [] => none
    | c :: rest =>
      if c = '\x27' ∨ c = '"' then
        match parseStrBody (rest.length + 1) c rest with
        | some (b, r) => some (PyVal.str b.asString, r)
        | none => none
      else if c = '\x7b' then parseDictRest fuel rest []
      else if c = '[' then parseListRest fuel rest []
      else if c = 'T' then
        match cs with
        | 'T' :: 'r' :: 'u' :: 'e' :: r => some (PyVal.bool true, r)
        | _ => none
      else if c = 'F' then
        match cs with
        | 'F' :: 'a' :: 'l' :: 's' :: 'e' :: r => some (PyVal.bool false, r)
        | _ => none
      else if c = 'N' then
        match cs with
        | 'N' :: 'o' :: 'n' :: 'e' :: r => some (PyVal.none, r)
        | _ => none
      else parseIntLit cs

/-- Dictionary entries after the opening brace, trailing comma allowed.
Entries are kept in textual order; lookup takes the last binding of a key,
matching dictionary construction overwriting earlier duplicates. A list or
dictionary key makes the construction raise for unhashability, a parse
failure. -/
def parseDictRest : Nat → List Char → List (PyVal × PyVal) → Option (PyVal × List Char)
  | 0, _, _ => none
  | Nat.succ fuel, cs0, acc =>
    let cs := skipWs cs0
    match cs with
    | '\x7d' :: r => some (PyVal.dict acc.reverse, r)
    | _ =>
      match parseVal fuel cs with
      | some (k, r1) =>
        match k with
        | PyVal.list _ => none
        | PyVal.dict _ => none
        | _ =>
        match skipWs r1 with
        | ':' :: r2 =>
          match parseVal fuel r2 with
          | some (v, r3) =>
            match skipWs r3 with
            | ',' :: r4 => parseDictRest fuel r4 ((k, v) :: acc)
            | '\x7d' :: r4 => some (PyVal.dict ((k, v) :: acc).reverse, r4)
            | _ => none
          | none => none
        | _ => none
      | none => none

/-- List items after the opening bracket, trailing comma allowed. -/
def parseListRest : Nat → List Char → List PyVal → Option (PyVal × List Char)
  | 0, _, _ => none
  | Nat.succ fuel, cs0, acc =>
    let cs := skipWs cs0
    match cs with
    | ']' :: r => some (PyVal.list acc.reverse, r)
    | _ =>
      match parseVal fuel cs with
      | some (v, r1) =>
        match skipWs r1 with
        | ',' :: r2 => parseListRest fuel r2 (v :: acc)
        | ']' :: r2 => some (PyVal.list (v :: acc).reverse, r2)
        | _ => none
      | none => none

end

/-- Model of `ast.literal_eval(details_str)` on the modelled literal subset: the whole
input, up to surrounding whitespace, must be one literal value; `none` stands
for the exception path of the bare `except`. -/
def pyLiteralEval (s : String) : Option PyVal :=
  match parseVal (2 * s.length + 8) s.toList with
  | some (v, r) => if skipWs r = [] then some v else none
  | none => none

/-- Python dictionary lookup on the entry list: the last binding of the key
wins, as later duplicate keys overwrite earlier ones at construction. -/
def dictGet (entries : List (PyVal × PyVal)) (k : PyVal) : Option PyVal :=
  match entries.reverse.find? (fun e => pyEq e.1 k) with
  | some e => some e.2
  | none => none

mutual

/-- Python `repr` of a modelled value, used by `str` on containers. -/
def pyRepr : PyVal → String
  | PyVal.str s =>
    let q : Char :=
      if s.toList.contains '\x27' ∧ ¬ s.toList.contains '"' then '"' else '\x27'
    String.mk (q :: s.toList.foldr (fun c acc =>
      (if c = '\\' then ['\\', '\\']
       else if c = q then ['\\', q]
       else if c = '\n' then ['\\', 'n']
       else if c = '\t' then ['\\', 't']
       else if c = '\r' then ['\\', 'r']
       else [c]) ++ acc) [q])
  | PyVal.int n => toString n
  | PyVal.bool true => "True"
  | PyVal.bool false => "False"
  | PyVal.none => "None"
  | PyVal.list xs => "[" ++ pyReprList xs ++ "]"
  | PyVal.dict es => "\x7b" ++ pyReprEntries es ++ "\x7d"

def pyReprList : List PyVal → String
  | [] => ""
  | [x] => pyRepr x
  | x :: y :: rest => pyRepr x ++ (", ") ++ pyReprList (y :: rest)

def pyReprEntries : List (PyVal × PyVal) → String
  | [] => ""
  | [(k, v)] => pyRepr k ++ (": ") ++ pyRepr v
  | (k, v) :: e :: rest => pyRepr k ++ (": ") ++ pyRepr v ++ (", ") ++ pyReprEntries (e :: rest)

end

/-- Python `str` of a modelled value, as interpolated by the f-string
`f"{code} {status}. {message}"`: the identity on strings, `repr`-like
otherwise. -/
def pyToStr : PyVal → String
  | PyVal.str s => s
  | v => pyRepr v

/-- Body of `client._format_error` (named without the leading underscore),
generic in the literal parser `P`, which stands for `ast.literal_eval` as
the function observes it: `none` when the call raises into the bare except,
`some` of the parsed value otherwise. The three fallthrough arms to the raw
string are, in order: no regex match; the parser failing; the parsed value
not being a dictionary with an error entry. The arm where the error value
is not a dictionary models the `AttributeError` of `.get` on a
non-dictionary, swallowed by the bare except. -/
def format_errorWith (P : String → Option PyVal) (s : String) : String :=
  match matchErrorPattern s.toList with
  | Option.none => s
  | some (code, status, detailsStr) =>
    match P detailsStr with
    | Option.none => s
    | some (PyVal.dict entries) =>
      match dictGet entries (PyVal.str ("error")) with
      | Option.none => s
      | some (PyVal.dict inner) =>
        code ++ (" ") ++ status ++ (". ") ++
          pyToStr ((dictGet inner (PyVal.str ("message"))).getD (PyVal.str ("Unknown error")))
      | some _ => s
    | some _ => s

/-- Transcription of `client._format_error`: normalize the string form of a
caught transport error, with the literal parser instantiated at the
embedded one. -/
def format_error (s : String) : String := format_errorWith pyLiteralEval s

/-- The models one client attempts for one model group, in order: the primary,
then the secondary when it is truthy (present and non-empty), matching the
`if secondary_model:` guard. -/
def slotModels (p : String) (sec : Option String) : List String :=
  match sec with
  | some s => if s = "" then [p] else [p, s]
  | none => [p]

/-- The full (model, client index) order one model group would contribute if
every attempt in it failed with a recognized error: clients in construction
order, primary then secondary within a client. -/
def pairOrder (p : String) (sec : Option String) (idxs : List Nat) : List (String × Nat) :=
  idxs.flatMap (fun i => (slotModels p sec).map (fun m => (m, i)))

/-- The attempt order contributed by one model group. -/
def groupOrder (idxs : List Nat) (g : List String) : List (String × Nat) :=
  match g with
  | [] => []
  | p :: restg => pairOrder p restg.head? idxs

/-- The full attempt order of one generate call on exhaustion: model groups in
roster order, and within each group the order of `pairOrder`. Every actual
call trace is a prefix of this list. -/
def attemptOrder (c : GeminiRotationClient) : List (String × Nat) :=
  (modelGroups c.models).flatMap (groupOrder (List.range c.clients.length))

/-- One admissible behavior of the Python expression `list(set(xs))`:
deduplicate, then reverse. Exhibits that the `set` round-trip in
`get_gemini_api_keys` is free to reorder the discovered credentials. -/
def revDedup (xs : List String) : List String :=
  xs.dedup.reverse

/-- Three-way classification of a transport result as the try/except blocks
see it: a returned response, a caught recognized error, or an uncaught
exception. Proof device for case analyses over the traversal. -/
inductive AttemptClass (ρ : Type) where
  | ok (r : ρ)
  | recognized
  | other (msg : String)

/-- Classify a transport result the way the except clauses do. -/
def classify {ρ : Type} : TransportResult ρ → AttemptClass ρ
  | TransportResult.success r => AttemptClass.ok r
  | TransportResult.clientError _ => AttemptClass.recognized
  | TransportResult.serverError _ => AttemptClass.recognized
  | TransportResult.otherError m => AttemptClass.other m

/-!
Helper lemmas: single steps of the two traversal loops, as rewriting rules
conditioned on the classification of the transport result.
-/

theorem classify_eq_ok {ρ : Type} {res : TransportResult ρ} {r : ρ}
    (h : classify res = AttemptClass.ok r) : res = TransportResult.success r := by
  cases res <;> simp [classify] at h
  rw [h]

theorem classify_eq_other {ρ : Type} {res : TransportResult ρ} {m : String}
    (h : classify res = AttemptClass.other m) : res = TransportResult.otherError m := by
  cases res <;> simp [classify] at h
  rw [h]

theorem classify_eq_recognized {ρ : Type} {res : TransportResult ρ}
    (h : classify res = AttemptClass.recognized) : IsRecognized res := by
  cases res with
  | success r => simp [classify] at h
  | clientError m => exact Or.inl ⟨m, rfl⟩
  | serverError m => exact Or.inr ⟨m, rfl⟩
  | otherError m => simp [classify] at h

theorem tryPair_cons_success {ρ : Type} {t : Nat → String → TransportResult ρ}
    {p : String} {sec : Option String} {i : Nat} {rest : List Nat} {r : ρ}
    (h : t i p = TransportResult.success r) :
    tryPair t p sec (i :: rest) = ([(p, i)], some (GenOutcome.success r)) := by
  simp [tryPair, h]

theorem tryPair_cons_other {ρ : Type} {t : Nat → String → TransportResult ρ}
    {p : String} {sec : Option String} {i : Nat} {rest : List Nat} {m : String}
    (h : t i p = TransportResult.otherError m) :
    tryPair t p sec (i :: rest) = ([(p, i)], some (GenOutcome.propagated m)) := by
  simp [tryPair, h]

theorem tryPair_cons_recognized_none {ρ : Type} {t : Nat → String → TransportResult ρ}
    {p : String} {i : Nat} {rest : List Nat}
    (h : IsRecognized (t i p)) :
    tryPair t p Option.none (i :: rest) =
      ((p, i) :: (tryPair t p Option.none rest).1, (tryPair t p Option.none rest).2) := by
  rcases h with ⟨m, e⟩ | ⟨m, e⟩ <;> simp [tryPair, e]

theorem tryPair_cons_recognized_some_empty {ρ : Type} {t : Nat → String → TransportResult ρ}
    {p : String} {i : Nat} {rest : List Nat}
    (h : IsRecognized (t i p)) :
    tryPair t p (some ("")) (i :: rest) =
      ((p, i) :: (tryPair t p (some ("")) rest).1, (tryPair t p (some ("")) rest).2) := by
  rcases h with ⟨m, e⟩ | ⟨m, e⟩ <;> simp [tryPair, e]

theorem tryPair_cons_recognized_some_success {ρ : Type} {t : Nat → String → TransportResult ρ}
    {p sec : String} {i : Nat} {rest : List Nat} {r : ρ}
    (h1 : IsRecognized (t i p)) (h2 : t i sec = TransportResult.success r)
    (hs : ¬ sec = "") :
    tryPair t p (some sec) (i :: rest) =
      ([(p, i), (sec, i)], some (GenOutcome.success r)) := by
  rcases h1 with ⟨m, e⟩ | ⟨m, e⟩ <;> simp [tryPair, e, h2, hs]

theorem tryPair_cons_recognized_some_other {ρ : Type} {t : Nat → String → TransportResult ρ}
    {p sec : String} {i : Nat} {rest : List Nat} {m2 : String}
    (h1 : IsRecognized (t i p)) (h2 : t i sec = TransportResult.otherError m2)
    (hs : ¬ sec = "") :
    tryPair t p (some sec) (i :: rest) =
      ([(p, i), (sec, i)], some (GenOutcome.propagated m2)) := by
  rcases h1 with ⟨m, e⟩ | ⟨m, e⟩ <;> simp [tryPair, e, h2, hs]

theorem tryPair_cons_recognized_some_recognized {ρ : Type} {t : Nat → String → TransportResult ρ}
    {p sec : String} {i : Nat} {rest : List Nat}
    (h1 : IsRecognized (t i p)) (h2 : IsRecognized (t i sec)) (hs : ¬ sec = "") :
    tryPair t p (some sec) (i :: rest) =
      ((p, i) :: (sec, i) :: (tryPair t p (some sec) rest).1,
        (tryPair t p (some sec) rest).2) := by
  rcases h1 with ⟨m, e⟩ | ⟨m, e⟩ <;> rcases h2 with ⟨n, f⟩ | ⟨n, f⟩ <;>
    simp [tryPair, e, f, hs]

theorem tryGroups_cons_stop {ρ : Type} {t : Nat → String → TransportResult ρ}
    {idxs : List Nat} {p : String} {restg : List String} {gs : List (List String)}
    {o : GenOutcome ρ}
    (h : (tryPair t p restg.head? idxs).2 = some o) :
    tryGroups t idxs ((p :: restg) :: gs) = ((tryPair t p restg.head? idxs).1, some o) := by
  simp [tryGroups, h]

theorem tryGroups_cons_continue {ρ : Type} {t : Nat → String → TransportResult ρ}
    {idxs : List Nat} {p : String} {restg : List String} {gs : List (List String)}
    (h : (tryPair t p restg.head? idxs).2 = none) :
    tryGroups t idxs ((p :: restg) :: gs) =
      ((tryPair t p restg.head? idxs).1 ++ (tryGroups t idxs gs).1,
        (tryGroups t idxs gs).2) := by
  simp [tryGroups, h]

/-- No group produced by `modelGroups` is empty. -/
theorem modelGroups_ne_nil : ∀ (ms : List String), ∀ g ∈ modelGroups ms, g ≠ []
  | [] => by simp [modelGroups]
  | [a] => by simp [modelGroups]
  | a :: b :: t => by
    intro g hg
    rcases (by simpa [modelGroups] using hg : g = [a, b] ∨ g ∈ modelGroups t) with h | h
    · simp [h]
    · exact modelGroups_ne_nil t g h

theorem modelGroups_length : ∀ (ms : List String),
    (modelGroups ms).length = (ms.length + 1) / 2
  | [] => rfl
  | [_] => by simp [modelGroups]
  | _ :: _ :: t => by
    simp only [modelGroups, List.length_cons, modelGroups_length t]
    omega

theorem modelGroups_flatten : ∀ (ms : List String), (modelGroups ms).flatten = ms
  | [] => rfl
  | [_] => by simp [modelGroups]
  | a :: b :: t => by
    simp [modelGroups, modelGroups_flatten t]

/-- Appending an element in front keeps an already-found last element. -/
theorem getLast?_cons_of_eq_some {α : Type} {l : List α} {a x : α}
    (h : l.getLast? = some x) : (a :: l).getLast? = some x := by
  cases l with
  | nil => simp at h
  | cons b t => rw [List.getLast?_cons_cons]; exact h

theorem getLast?_append_of_eq_some {α : Type} {l₁ l₂ : List α} {x : α}
    (h : l₂.getLast? = some x) : (l₁ ++ l₂).getLast? = some x := by
  induction l₁ with
  | nil => simpa using h
  | cons a t ih => rw [List.cons_append]; exact getLast?_cons_of_eq_some ih

theorem modelGroups_last : ∀ (ms : List String), ms ≠ [] →
    ∃ g, (modelGroups ms).getLast? = some g ∧ (g.length = 2 ↔ ms.length % 2 = 0)
  | [], h => absurd rfl h
  | [a], _ => ⟨[a], rfl, by simp⟩
  | [a, b], _ => ⟨[a, b], rfl, by simp⟩
  | a :: b :: c :: t, _ => by
    obtain ⟨g, hg, hiff⟩ := modelGroups_last (c :: t) (by simp)
    refine ⟨g, ?_, ?_⟩
    · show ([a, b] :: modelGroups (c :: t)).getLast? = some g
      exact getLast?_cons_of_eq_some hg
    · have : (a :: b :: c :: t).length % 2 = (c :: t).length % 2 := by
        simp only [List.length_cons]; omega
      rw [this]; exact hiff

/-- Claim C7: for a roster of length N the per-request partition into model
groups has exactly ceil(N/2) groups, concatenates back to the roster in order,
and, when the roster is non-empty, the last group has a secondary slot (two
elements) exactly when N is even. -/
theorem c7_model_pairs :
    (∀ ms : List String, (modelGroups ms).length = (ms.length + 1) / 2) ∧
    (∀ ms : List String, (modelGroups ms).flatten = ms) ∧
    (∀ ms : List String, ms ≠ [] →
      ∃ g, (modelGroups ms).getLast? = some g ∧ (g.length = 2 ↔ ms.length % 2 = 0)) :=
  ⟨modelGroups_length, modelGroups_flatten, modelGroups_last⟩

/-- Witness for C7 at the roster [A, B, C]: two groups, join recovers the
roster, and the last group has no secondary since the length is odd. -/
theorem c7_model_pairs_witness :
    (modelGroups ["A", "B", "C"]).length = (3 + 1) / 2 ∧
    (modelGroups ["A", "B", "C"]).flatten = ["A", "B", "C"] ∧
    ∃ g, (modelGroups ["A", "B", "C"]).getLast? = some g ∧ (g.length = 2 ↔ 3 % 2 = 0) :=
  ⟨c7_model_pairs.1 ["A", "B", "C"], c7_model_pairs.2.1 ["A", "B", "C"],
    c7_model_pairs.2.2 ["A", "B", "C"] (by simp)⟩

/-- Claim C8: with an empty model roster a generate call performs zero
transport attempts and raises the aggregate failure (with zero as the model
count); it neither loops nor surfaces any other error. -/
theorem c8_empty_roster {ρ : Type} (c : GeminiRotationClient)
    (t : Nat → String → TransportResult ρ) (h : c.models = []) :
    generate_content c t = ([], GenOutcome.aggregateFailure c.clients.length 0) := by
  simp [generate_content, h, modelGroups, tryGroups]

/-- Witness for C8: one client, empty roster, a transport that would always
succeed; no attempt is made and the aggregate failure is raised. -/
theorem c8_empty_roster_witness :
    generate_content
        { api_keys := ["k"], clients := [Client.mk ("k")], models := [] }
        (fun _ _ => TransportResult.success (0 : Nat)) =
      ([], GenOutcome.aggregateFailure 1 0) :=
  c8_empty_roster _ _ rfl

theorem tryPairSync_eq_tryPair {ρ : Type} (t : Nat → String → TransportResult ρ)
    (p : String) (sec : Option String) :
    ∀ idxs : List Nat, tryPairSync t p sec idxs = tryPair t p sec idxs
  | [] => rfl
  | i :: rest => by
    simp only [tryPairSync, tryPair, tryPairSync_eq_tryPair t p sec rest]

theorem tryGroupsSync_eq_tryGroups {ρ : Type} (t : Nat → String → TransportResult ρ)
    (idxs : List Nat) :
    ∀ gs : List (List String), tryGroupsSync t idxs gs = tryGroups t idxs gs
  | [] => rfl
  | g :: gs => by
    cases g with
    | nil =>
      show tryGroupsSync t idxs gs = tryGroups t idxs gs
      exact tryGroupsSync_eq_tryGroups t idxs gs
    | cons p restg =>
      simp only [tryGroupsSync, tryGroups, tryPairSync_eq_tryPair,
        tryGroupsSync_eq_tryGroups t idxs gs]

theorem pairOrder_cons {p : String} {sec : Option String} {i : Nat} {idxs : List Nat} :
    pairOrder p sec (i :: idxs) =
      (slotModels p sec).map (fun m => (m, i)) ++ pairOrder p sec idxs := by
  simp [pairOrder]

/-- The calls one inner loop makes are an initial segment of the calls it
would make on exhaustion. -/
theorem tryPair_trace_prefix {ρ : Type} (t : Nat → String → TransportResult ρ)
    (p : String) (sec : Option String) :
    ∀ idxs : List Nat, ∃ rest, (tryPair t p sec idxs).1 ++ rest = pairOrder p sec idxs
  | [] => ⟨[], rfl⟩
  | i :: idxs => by
    obtain ⟨r0, hr0⟩ := tryPair_trace_prefix t p sec idxs
    cases hc : classify (t i p) with
    | ok r =>
      refine ⟨((slotModels p sec).map (fun m => (m, i))).tail ++ pairOrder p sec idxs, ?_⟩
      rw [tryPair_cons_success (classify_eq_ok hc), pairOrder_cons]
      cases sec with
      | none => simp [slotModels]
      | some sv => by_cases hse : sv = "" <;> simp [slotModels, hse]
    | other m =>
      refine ⟨((slotModels p sec).map (fun m => (m, i))).tail ++ pairOrder p sec idxs, ?_⟩
      rw [tryPair_cons_other (classify_eq_other hc), pairOrder_cons]
      cases sec with
      | none => simp [slotModels]
      | some sv => by_cases hse : sv = "" <;> simp [slotModels, hse]
    | recognized =>
      have hrec := classify_eq_recognized hc
      cases sec with
      | none =>
        refine ⟨r0, ?_⟩
        rw [tryPair_cons_recognized_none hrec, pairOrder_cons]
        simpa [slotModels] using hr0
      | some sv =>
        by_cases hse : sv = ""
        · subst hse
          refine ⟨r0, ?_⟩
          rw [tryPair_cons_recognized_some_empty hrec, pairOrder_cons]
          simpa [slotModels] using hr0
        · cases hc2 : classify (t i sv) with
          | ok r =>
            refine ⟨pairOrder p (some sv) idxs, ?_⟩
            rw [tryPair_cons_recognized_some_success hrec (classify_eq_ok hc2) hse,
              pairOrder_cons]
            simp [slotModels, hse]
          | other m2 =>
            refine ⟨pairOrder p (some sv) idxs, ?_⟩
            rw [tryPair_cons_recognized_some_other hrec (classify_eq_other hc2) hse,
              pairOrder_cons]
            simp [slotModels, hse]
          | recognized =>
            refine ⟨r0, ?_⟩
            rw [tryPair_cons_recognized_some_recognized hrec (classify_eq_recognized hc2) hse,
              pairOrder_cons]
            simpa [slotModels, hse] using hr0

/-- When the inner loop falls through to the next model group, it has made
exactly the exhaustive call sequence for its group. -/
theorem tryPair_none_trace {ρ : Type} (t : Nat → String → TransportResult ρ)
    (p : String) (sec : Option String) :
    ∀ idxs : List Nat, (tryPair t p sec idxs).2 = none →
      (tryPair t p sec idxs).1 = pairOrder p sec idxs
  | [], _ => rfl
  | i :: idxs, hnone => by
    cases hc : classify (t i p) with
    | ok r =>
      rw [tryPair_cons_success (classify_eq_ok hc)] at hnone
      simp at hnone
    | other m =>
      rw [tryPair_cons_other (classify_eq_other hc)] at hnone
      simp at hnone
    | recognized =>
      have hrec := classify_eq_recognized hc
      cases sec with
      | none =>
        rw [tryPair_cons_recognized_none hrec] at hnone ⊢
        rw [pairOrder_cons]
        simpa [slotModels] using tryPair_none_trace t p Option.none idxs hnone
      | some sv =>
        by_cases hse : sv = ""
        · subst hse
          rw [tryPair_cons_recognized_some_empty hrec] at hnone ⊢
          rw [pairOrder_cons]
          simpa [slotModels] using tryPair_none_trace t p (some ("")) idxs hnone
        · cases hc2 : classify (t i sv) with
          | ok r =>
            rw [tryPair_cons_recognized_some_success hrec (classify_eq_ok hc2) hse] at hnone
            simp at hnone
          | other m2 =>
            rw [tryPair_cons_recognized_some_other hrec (classify_eq_other hc2) hse] at hnone
            simp at hnone
          | recognized =>
            rw [tryPair_cons_recognized_some_recognized hrec
              (classify_eq_recognized hc2) hse] at hnone ⊢
            rw [pairOrder_cons]
            simpa [slotModels, hse] using tryPair_none_trace t p (some sv) idxs hnone

/-- The calls the outer loop makes are an initial segment of the exhaustive
call order of the remaining groups. -/
theorem tryGroups_trace_prefix {ρ : Type} (t : Nat → String → TransportResult ρ)
    (idxs : List Nat) :
    ∀ gs : List (List String),
      ∃ rest, (tryGroups t idxs gs).1 ++ rest = gs.flatMap (groupOrder idxs)
  | [] => ⟨[], rfl⟩
  | g :: gs => by
    obtain ⟨r1, hr1⟩ := tryGroups_trace_prefix t idxs gs
    cases g with
    | nil =>
      refine ⟨r1, ?_⟩
      show (tryGroups t idxs gs).1 ++ r1 = groupOrder idxs [] ++ gs.flatMap (groupOrder idxs)
      simpa [groupOrder] using hr1
    | cons p restg =>
      obtain ⟨r0, hr0⟩ := tryPair_trace_prefix t p restg.head? idxs
      cases h : (tryPair t p restg.head? idxs).2 with
      | some o =>
        refine ⟨r0 ++ gs.flatMap (groupOrder idxs), ?_⟩
        rw [tryGroups_cons_stop h]
        show (tryPair t p restg.head? idxs).1 ++ (r0 ++ gs.flatMap (groupOrder idxs)) =
          groupOrder idxs (p :: restg) ++ gs.flatMap (groupOrder idxs)
        rw [← List.append_assoc, hr0]; rfl
      | none =>
        refine ⟨r1, ?_⟩
        rw [tryGroups_cons_continue h]
        show ((tryPair t p restg.head? idxs).1 ++ (tryGroups t idxs gs).1) ++ r1 =
          groupOrder idxs (p :: restg) ++ gs.flatMap (groupOrder idxs)
        rw [List.append_assoc, hr1, tryPair_none_trace t p restg.head? idxs h]; rfl

/-- The trace component of a generate call is the trace of its outer loop. -/
theorem generate_content_fst {ρ : Type} (c : GeminiRotationClient)
    (t : Nat → String → TransportResult ρ) :
    (generate_content c t).1 =
      (tryGroups t (List.range c.clients.length) (modelGroups c.models)).1 := by
  cases h : (tryGroups t (List.range c.clients.length) (modelGroups c.models)).2 <;>
    simp [generate_content, h]

/-- Claim C9: the blocking and the suspending entry points run the identical
traversal: for every controller state and every transport behavior they make
the same attempt sequence and produce the same outcome. -/
theorem c9_sync_async_equivalent {ρ : Type} (c : GeminiRotationClient)
    (t : Nat → String → TransportResult ρ) :
    generate_content_sync c t = generate_content c t := by
  simp only [generate_content_sync, generate_content, tryGroupsSync_eq_tryGroups]

/-- Claim C1: every generate call visits model groups in roster order and
clients in construction order within a group, primary before secondary, and
stops at the first success — its call trace is an initial segment of the
canonical order `attemptOrder`; in particular, with roster [A, B, C], two
clients, and a transport failing with a recognized error everywhere except a
success on (C, second client), the trace is exactly
(A,c1),(B,c1),(A,c2),(B,c2),(C,c1),(C,c2) and the call returns the response
of the sixth attempt. -/
theorem c1_traversal_order :
    (∀ {ρ : Type} (c : GeminiRotationClient) (t : Nat → String → TransportResult ρ),
      ∃ rest, (generate_content c t).1 ++ rest = attemptOrder c) ∧
    (∀ {ρ : Type} (k1 k2 : String) (t : Nat → String → TransportResult ρ) (r : ρ),
      t 1 ("C") = TransportResult.success r →
      (∀ i m, ¬(i = 1 ∧ m = "C") → IsRecognized (t i m)) →
      generate_content
          { api_keys := [k1, k2], clients := [Client.mk k1, Client.mk k2],
            models := ["A", "B", "C"] } t =
        ([("A", 0), ("B", 0), ("A", 1), ("B", 1), ("C", 0), ("C", 1)],
          GenOutcome.success r)) := by
  constructor
  · intro ρ c t
    obtain ⟨rest, hrest⟩ :=
      tryGroups_trace_prefix t (List.range c.clients.length) (modelGroups c.models)
    exact ⟨rest, by rw [generate_content_fst]; exact hrest⟩
  · intro ρ k1 k2 t r hs hf
    have h0A : IsRecognized (t 0 ("A")) := hf 0 ("A") (by simp)
    have h0B : IsRecognized (t 0 ("B")) := hf 0 ("B") (by simp)
    have h1A : IsRecognized (t 1 ("A")) := hf 1 ("A") (by decide)
    have h1B : IsRecognized (t 1 ("B")) := hf 1 ("B") (by decide)
    have h0C : IsRecognized (t 0 ("C")) := hf 0 ("C") (by simp)
    have p1 : tryPair t ("A") (List.head? ["B"]) [0, 1] =
        ([("A", 0), ("B", 0), ("A", 1), ("B", 1)], none) := by
      show tryPair t ("A") (some ("B")) [0, 1] = _
      rw [tryPair_cons_recognized_some_recognized h0A h0B (by decide),
        tryPair_cons_recognized_some_recognized h1A h1B (by decide)]
      rfl
    have p2 : tryPair t ("C") (List.head? ([] : List String)) [0, 1] =
        ([("C", 0), ("C", 1)], some (GenOutcome.success r)) := by
      show tryPair t ("C") Option.none [0, 1] = _
      rw [tryPair_cons_recognized_none h0C, tryPair_cons_success hs]
    have hp1 : (tryPair t ("A") (List.head? ["B"]) [0, 1]).2 = none := by rw [p1]
    have hp2 : (tryPair t ("C") (List.head? ([] : List String)) [0, 1]).2 =
        some (GenOutcome.success r) := by rw [p2]
    have g2 : tryGroups t [0, 1] [["C"]] =
        ([("C", 0), ("C", 1)], some (GenOutcome.success r)) := by
      rw [tryGroups_cons_stop hp2, p2]
    have g1 : tryGroups t [0, 1] [["A", "B"], ["C"]] =
        ([("A", 0), ("B", 0), ("A", 1), ("B", 1), ("C", 0), ("C", 1)],
          some (GenOutcome.success r)) := by
      rw [tryGroups_cons_continue hp1, p1, g2]
      rfl
    show generate_content _ t = _
    simp only [generate_content]
    rw [show List.range (List.length [Client.mk k1, Client.mk k2]) = [0, 1] from rfl,
      show modelGroups ["A", "B", "C"] = [["A", "B"], ["C"]] from rfl, g1]

/-- Witness for C1 at a concrete transport stub: recognized client errors
everywhere except a success for model C on the second client. -/
theorem c1_traversal_order_witness :
    generate_content
        { api_keys := ["k1", "k2"], clients := [Client.mk ("k1"), Client.mk ("k2")],
          models := ["A", "B", "C"] }
        (fun i m => if i = 1 ∧ m = "C" then TransportResult.success (42 : Nat)
          else TransportResult.clientError ("quota")) =
      ([("A", 0), ("B", 0), ("A", 1), ("B", 1), ("C", 0), ("C", 1)],
        GenOutcome.success 42) :=
  c1_traversal_order.2 ("k1") ("k2") _ 42 (by simp)
    (fun i m hm => by rw [if_neg hm]; exact Or.inl ⟨_, rfl⟩)

theorem tryPair_all_recognized {ρ : Type} {t : Nat → String → TransportResult ρ}
    (h : ∀ i m, IsRecognized (t i m)) (p : String) (sec : Option String) :
    ∀ idxs : List Nat, (tryPair t p sec idxs).2 = none
  | [] => rfl
  | i :: idxs => by
    cases sec with
    | none =>
      rw [tryPair_cons_recognized_none (h i p)]
      exact tryPair_all_recognized h p Option.none idxs
    | some sv =>
      by_cases hse : sv = ""
      · subst hse
        rw [tryPair_cons_recognized_some_empty (h i p)]
        exact tryPair_all_recognized h p (some ("")) idxs
      · rw [tryPair_cons_recognized_some_recognized (h i p) (h i sv) hse]
        exact tryPair_all_recognized h p (some sv) idxs

theorem tryGroups_all_recognized {ρ : Type} {t : Nat → String → TransportResult ρ}
    (h : ∀ i m, IsRecognized (t i m)) (idxs : List Nat) :
    ∀ gs : List (List String), (tryGroups t idxs gs).2 = none
  | [] => rfl
  | g :: gs => by
    cases g with
    | nil =>
      show (tryGroups t idxs gs).2 = none
      exact tryGroups_all_recognized h idxs gs
    | cons p restg =>
      rw [tryGroups_cons_continue (tryPair_all_recognized h p restg.head? idxs)]
      exact tryGroups_all_recognized h idxs gs

/-- Claim C3: when every (model, client) attempt fails with a recognized
error, the call ends in the aggregate failure carrying the client count and
the model count, and no response is returned. -/
theorem c3_aggregate_failure {ρ : Type} (c : GeminiRotationClient)
    (t : Nat → String → TransportResult ρ)
    (h : ∀ i m, IsRecognized (t i m)) :
    (generate_content c t).2 =
      GenOutcome.aggregateFailure c.clients.length c.models.length := by
  simp [generate_content, tryGroups_all_recognized h]

/-- If one of the calls the inner loop made hit an unrecognized error, the
loop stopped right there: the propagated outcome is its terminal result and
that call is the last one of its trace. -/
theorem tryPair_otherError_mem {ρ : Type} (t : Nat → String → TransportResult ρ)
    (p : String) (sec : Option String) (msg m : String) (i : Nat) :
    ∀ idxs : List Nat, (m, i) ∈ (tryPair t p sec idxs).1 →
      t i m = TransportResult.otherError msg →
      (tryPair t p sec idxs).2 = some (GenOutcome.propagated msg) ∧
        (tryPair t p sec idxs).1.getLast? = some (m, i)
  | [] => fun hmem _ => by simp [tryPair] at hmem
  | i0 :: idxs => fun hmem herr => by
    cases hc : classify (t i0 p) with
    | ok r =>
      have h := classify_eq_ok hc
      rw [tryPair_cons_success h] at hmem
      simp only [List.mem_singleton] at hmem
      injection hmem with hm hi
      subst hm; subst hi
      rw [h] at herr; simp at herr
    | other m0 =>
      have h := classify_eq_other hc
      rw [tryPair_cons_other h] at hmem ⊢
      simp only [List.mem_singleton] at hmem
      injection hmem with hm hi
      subst hm; subst hi
      rw [h] at herr
      injection herr with hmsg
      subst hmsg
      exact ⟨rfl, rfl⟩
    | recognized =>
      have hrec := classify_eq_recognized hc
      cases sec with
      | none =>
        rw [tryPair_cons_recognized_none hrec] at hmem ⊢
        rcases List.mem_cons.mp hmem with heq | hmem2
        · injection heq with hm hi
          subst hm; subst hi
          rcases hrec with ⟨m0, e⟩ | ⟨m0, e⟩ <;> rw [e] at herr <;> simp at herr
        · obtain ⟨h2, hlast⟩ :=
            tryPair_otherError_mem t p Option.none msg m i idxs hmem2 herr
          exact ⟨h2, getLast?_cons_of_eq_some hlast⟩
      | some sv =>
        by_cases hse : sv = ""
        · subst hse
          rw [tryPair_cons_recognized_some_empty hrec] at hmem ⊢
          rcases List.mem_cons.mp hmem with heq | hmem2
          · injection heq with hm hi
            subst hm; subst hi
            rcases hrec with ⟨m0, e⟩ | ⟨m0, e⟩ <;> rw [e] at herr <;> simp at herr
          · obtain ⟨h2, hlast⟩ :=
              tryPair_otherError_mem t p (some ("")) msg m i idxs hmem2 herr
            exact ⟨h2, getLast?_cons_of_eq_some hlast⟩
        · cases hc2 : classify (t i0 sv) with
          | ok r =>
            have h2 := classify_eq_ok hc2
            rw [tryPair_cons_recognized_some_success hrec h2 hse] at hmem
            rcases List.mem_cons.mp hmem with heq | hmem2
            · injection heq with hm hi
              subst hm; subst hi
              rcases hrec with ⟨m0, e⟩ | ⟨m0, e⟩ <;> rw [e] at herr <;> simp at herr
            · simp only [List.mem_singleton] at hmem2
              injection hmem2 with hm hi
              subst hm; subst hi
              rw [h2] at herr; simp at herr
          | other m2 =>
            have h2 := classify_eq_other hc2
            rw [tryPair_cons_recognized_some_other hrec h2 hse] at hmem ⊢
            rcases List.mem_cons.mp hmem with heq | hmem2
            · injection heq with hm hi
              subst hm; subst hi
              rcases hrec with ⟨m0, e⟩ | ⟨m0, e⟩ <;> rw [e] at herr <;> simp at herr
            · simp only [List.mem_singleton] at hmem2
              injection hmem2 with hm hi
              subst hm; subst hi
              rw [h2] at herr
              injection herr with hmsg
              subst hmsg
              exact ⟨rfl, rfl⟩
          | recognized =>
            have hrec2 := classify_eq_recognized hc2
            rw [tryPair_cons_recognized_some_recognized hrec hrec2 hse] at hmem ⊢
            rcases List.mem_cons.mp hmem with heq | hmem2
            · injection heq with hm hi
              subst hm; subst hi
              rcases hrec with ⟨m0, e⟩ | ⟨m0, e⟩ <;> rw [e] at herr <;> simp at herr
            · rcases List.mem_cons.mp hmem2 with heq | hmem3
              · injection heq with hm hi
                subst hm; subst hi
                rcases hrec2 with ⟨m0, e⟩ | ⟨m0, e⟩ <;> rw [e] at herr <;> simp at herr
              · obtain ⟨h3, hlast⟩ :=
                  tryPair_otherError_mem t p (some sv) msg m i idxs hmem3 herr
                exact ⟨h3, getLast?_cons_of_eq_some (getLast?_cons_of_eq_some hlast)⟩

/-- Lifting of `tryPair_otherError_mem` to the outer loop. -/
theorem tryGroups_otherError_mem {ρ : Type} (t : Nat → String → TransportResult ρ)
    (idxs : List Nat) (msg m : String) (i : Nat) :
    ∀ gs : List (List String), (m, i) ∈ (tryGroups t idxs gs).1 →
      t i m = TransportResult.otherError msg →
      (tryGroups t idxs gs).2 = some (GenOutcome.propagated msg) ∧
        (tryGroups t idxs gs).1.getLast? = some (m, i)
  | [] => fun hmem _ => by simp [tryGroups] at hmem
  | g :: gs => fun hmem herr => by
    cases g with
    | nil =>
      have hskip : tryGroups t idxs ([] :: gs) = tryGroups t idxs gs := rfl
      rw [hskip] at hmem ⊢
      exact tryGroups_otherError_mem t idxs msg m i gs hmem herr
    | cons p restg =>
      cases h : (tryPair t p restg.head? idxs).2 with
      | some o =>
        rw [tryGroups_cons_stop h] at hmem ⊢
        obtain ⟨h2, hlast⟩ :=
          tryPair_otherError_mem t p restg.head? msg m i idxs hmem herr
        rw [h] at h2
        injection h2 with h2
        exact ⟨by rw [show ((tryPair t p restg.head? idxs).1, some o).2 = some o from rfl, h2],
          hlast⟩
      | none =>
        rw [tryGroups_cons_continue h] at hmem ⊢
        rcases List.mem_append.mp hmem with hmem1 | hmem2
        · obtain ⟨h2, _⟩ :=
            tryPair_otherError_mem t p restg.head? msg m i idxs hmem1 herr
          rw [h] at h2; simp at h2
        · obtain ⟨h2, hlast⟩ :=
            tryGroups_otherError_mem t idxs msg m i gs hmem2 herr
          exact ⟨h2, getLast?_append_of_eq_some hlast⟩

/-- Claim C2: if any attempt of a generate call hits an error outside the two
recognized classes, that error propagates to the caller unmodified and the
traversal stops immediately — the failing attempt is the last entry of the
call trace, so no later (model, client) combination is tried. -/
theorem c2_unrecognized_propagates {ρ : Type} (c : GeminiRotationClient)
    (t : Nat → String → TransportResult ρ) (m : String) (i : Nat) (msg : String)
    (hmem : (m, i) ∈ (generate_content c t).1)
    (herr : t i m = TransportResult.otherError msg) :
    (generate_content c t).2 = GenOutcome.propagated msg ∧
      (generate_content c t).1.getLast? = some (m, i) := by
  rw [generate_content_fst] at hmem
  obtain ⟨h2, hlast⟩ := tryGroups_otherError_mem t (List.range c.clients.length) msg m i
    (modelGroups c.models) hmem herr
  constructor
  · simp [generate_content, h2]
  · rw [generate_content_fst]; exact hlast

/-- Witness for C2: a transport raising an unrecognized error on the very
first attempt; the error propagates and nothing beyond (A, client 0) is
tried. -/
theorem c2_unrecognized_propagates_witness :
    (generate_content
        { api_keys := ["k1", "k2"], clients := [Client.mk ("k1"), Client.mk ("k2")],
          models := ["A", "B", "C"] }
        (fun _ _ => TransportResult.otherError ("weird") : Nat → String → TransportResult Nat)).2 =
        GenOutcome.propagated ("weird") ∧
      (generate_content
        { api_keys := ["k1", "k2"], clients := [Client.mk ("k1"), Client.mk ("k2")],
          models := ["A", "B", "C"] }
        (fun _ _ => TransportResult.otherError ("weird") : Nat → String → TransportResult Nat)).1.getLast? =
        some (("A"), 0) :=
  c2_unrecognized_propagates _ _ ("A") 0 ("weird") (by decide) rfl

/-- Witness for C3: two clients, roster of three models, a transport that
always raises a server-side error; the outcome carries counts 2 and 3. -/
theorem c3_aggregate_failure_witness :
    (generate_content
        { api_keys := ["k1", "k2"], clients := [Client.mk ("k1"), Client.mk ("k2")],
          models := ["A", "B", "C"] }
        (fun _ _ => TransportResult.serverError ("unavailable") : Nat → String → TransportResult Nat)).2 =
      GenOutcome.aggregateFailure 2 3 :=
  c3_aggregate_failure _ _ (fun _ _ => Or.inr ⟨_, rfl⟩)

theorem isSetLike_dedup : IsSetLike (fun xs => xs.dedup) :=
  fun xs => ⟨List.nodup_dedup xs, fun _ => List.mem_dedup⟩

theorem isSetLike_revDedup : IsSetLike revDedup :=
  fun xs => ⟨by simpa [revDedup] using List.nodup_dedup xs,
    fun a => by simp [revDedup, List.mem_reverse, List.mem_dedup]⟩

/-- Counterexample to claim C4 as stated: the credential discovery pipes the
ordered keys through `list(set(...))`, whose iteration order is unspecified,
so the construction order need not equal the given credential order.
`revDedup` is an admissible `list(set(·))` behavior; under it the environment
that sets the numbered keys a then b yields clients bound to b then a. -/
theorem c4_order_counterexample :
    IsSetLike revDedup ∧
    rawKeys { singleKey := Option.none, numberedKeys := [some ("a"), some ("b")] } =
      ["a", "b"] ∧
    init { singleKey := Option.none, numberedKeys := [some ("a"), some ("b")] }
        revDedup ["M"] =
      Except.ok { api_keys := ["b", "a"],
                  clients := [Client.mk ("b"), Client.mk ("a")],
                  models := ["M"] } ∧
    [Client.mk ("b"), Client.mk ("a")] ≠ [Client.mk ("a"), Client.mk ("b")] :=
  ⟨isSetLike_revDedup, rfl, rfl, by decide⟩

/-- Claim C4 (amended): construction from a non-empty credential discovery
builds exactly one CredentialClient per distinct discovered credential — the
stored keys are duplicate-free and hold exactly the discovered credentials,
with one client per stored key in that order — and retains the model roster
unchanged; the construction order is the deduplication order of the
`list(set(...))` round-trip, which is not guaranteed to equal the discovered
credential order. -/
theorem c4_construction (env : Env) (f : List String → List String)
    (roster : List String) (ctrl : GeminiRotationClient)
    (hf : IsSetLike f) (h : init env f roster = Except.ok ctrl) :
    ctrl.clients = ctrl.api_keys.map Client.mk ∧
    ctrl.api_keys.Nodup ∧
    (∀ k, k ∈ ctrl.api_keys ↔ k ∈ rawKeys env) ∧
    ctrl.clients.length = ctrl.api_keys.length ∧
    ctrl.models = roster := by
  simp only [init] at h
  split at h
  · simp at h
  · injection h with h
    subst h
    exact ⟨rfl, (hf (rawKeys env)).1, fun k => (hf (rawKeys env)).2 k, by simp, rfl⟩

/-- Witness for the amended C4 at a concrete environment and the
deduplication order that happens to preserve the input order. -/
theorem c4_construction_witness :
    (GeminiRotationClient.mk ["a", "b"] [Client.mk ("a"), Client.mk ("b")] ["M"]).clients =
      (GeminiRotationClient.mk ["a", "b"] [Client.mk ("a"), Client.mk ("b")] ["M"]).api_keys.map Client.mk ∧
    (GeminiRotationClient.mk ["a", "b"] [Client.mk ("a"), Client.mk ("b")] ["M"]).api_keys.Nodup ∧
    (∀ k, k ∈ (GeminiRotationClient.mk ["a", "b"] [Client.mk ("a"), Client.mk ("b")] ["M"]).api_keys ↔
      k ∈ rawKeys ({ singleKey := Option.none, numberedKeys := [some ("a"), some ("b")] } : Env)) ∧
    (GeminiRotationClient.mk ["a", "b"] [Client.mk ("a"), Client.mk ("b")] ["M"]).clients.length =
      (GeminiRotationClient.mk ["a", "b"] [Client.mk ("a"), Client.mk ("b")] ["M"]).api_keys.length ∧
    (GeminiRotationClient.mk ["a", "b"] [Client.mk ("a"), Client.mk ("b")] ["M"]).models = ["M"] :=
  c4_construction { singleKey := Option.none, numberedKeys := [some ("a"), some ("b")] }
    (fun xs => xs.dedup) ["M"] _ isSetLike_dedup rfl

/-- Claim C5: construction succeeds whenever the discovered credential list is
non-empty, and fails with the configuration error (the `ValueError` raise)
when it is empty, for every admissible deduplication order. -/
theorem c5_construction :
    (∀ (env : Env) (f : List String → List String) (roster : List String),
      IsSetLike f → rawKeys env ≠ [] →
      ∃ ctrl, init env f roster = Except.ok ctrl) ∧
    (∀ (env : Env) (f : List String → List String) (roster : List String),
      IsSetLike f → rawKeys env = [] →
      init env f roster = Except.error ConfigError.configurationError) := by
  constructor
  · intro env f roster hf hne
    obtain ⟨a, ha⟩ := List.exists_mem_of_ne_nil (rawKeys env) hne
    have hmem : a ∈ f (rawKeys env) := ((hf (rawKeys env)).2 a).mpr ha
    have hfe : get_gemini_api_keys env f ≠ [] := by
      intro h0
      have h0f : f (rawKeys env) = [] := h0
      rw [h0f] at hmem
      exact absurd hmem (List.not_mem_nil a)
    refine ⟨{ api_keys := get_gemini_api_keys env f,
              clients := (get_gemini_api_keys env f).map Client.mk,
              models := roster }, ?_⟩
    simp only [init]
    rw [if_neg hfe]
  · intro env f roster hf he
    have hempty : get_gemini_api_keys env f = [] := by
      show f (rawKeys env) = []
      rw [he]
      cases hq : f [] with
      | nil => rfl
      | cons x xs =>
        exfalso
        have hx : x ∈ f [] := by rw [hq]; exact List.mem_cons_self x xs
        exact absurd (((hf []).2 x).mp hx) (List.not_mem_nil x)
    simp only [init]
    rw [if_pos hempty]

/-- Witness for C5: an environment with a single key constructs successfully,
an empty environment fails with the configuration error. -/
theorem c5_construction_witness :
    (∃ ctrl, init { singleKey := some ("k"), numberedKeys := [] }
        (fun xs => xs.dedup) ["M"] = Except.ok ctrl) ∧
    init { singleKey := Option.none, numberedKeys := [] }
        (fun xs => xs.dedup) ["M"] =
      Except.error ConfigError.configurationError :=
  ⟨c5_construction.1 _ _ ["M"] isSetLike_dedup (by decide),
    c5_construction.2 _ _ ["M"] isSetLike_dedup rfl⟩

/-- Claim C6: the normalization maps the quota example to its extracted form;
on any input whose string does not match the anchored pattern it returns the
input unchanged (the matcher embeds the exact character classes, so match
and non-match coincide with the source pattern); and on any match whose
payload fails to parse it returns the input unchanged, proved for every
literal parser, hence in particular for the behavior of `ast.literal_eval`.
It never raises: it is a total function into strings, the bare except
absorbing every extraction failure into the unchanged-input arm. -/
theorem c6_format_error :
    format_error ("429 RESOURCE_EXHAUSTED. \x7b\x27error\x27: \x7b\x27message\x27: \x27quota hit\x27\x7d\x7d") =
      ("429 RESOURCE_EXHAUSTED. quota hit") ∧
    (∀ s : String, matchErrorPattern s.toList = Option.none → format_error s = s) ∧
    (∀ (P : String → Option PyVal) (s code status details : String),
      matchErrorPattern s.toList = some (code, status, details) →
      P details = Option.none → format_errorWith P s = s) := by
  refine ⟨rfl, ?_, ?_⟩
  · intro s h
    simp only [format_error, format_errorWith, h]
  · intro P s code status details h1 h2
    simp only [format_errorWith, h1, h2]

/-- Witness for C6: a string with no pattern match, and a matching string
whose payload is not a literal, both come back unchanged. -/
theorem c6_format_error_witness :
    format_error ("no match here") = ("no match here") ∧
    format_errorWith pyLiteralEval ("429 RESOURCE_EXHAUSTED. not a dict") =
      ("429 RESOURCE_EXHAUSTED. not a dict") :=
  ⟨c6_format_error.2.1 ("no match here") rfl,
    c6_format_error.2.2 pyLiteralEval ("429 RESOURCE_EXHAUSTED. not a dict") ("429")
      ("RESOURCE_EXHAUSTED") ("not a dict") rfl rfl⟩

/-- Claim C10: when the string matches the pattern and the payload parses to a
dictionary whose error entry is a dictionary without a message key, the
normalization returns code, status and the fallback text Unknown error rather
than the raw input. The embedded parser is exact on success — it decodes
escapes as the tokenizer does and accepts no input the source rejects — so
the hypotheses hold precisely when the source takes this path. -/
theorem c10_missing_message (s code status details : String)
    (entries inner : List (PyVal × PyVal))
    (h1 : matchErrorPattern s.toList = some (code, status, details))
    (h2 : pyLiteralEval details = some (PyVal.dict entries))
    (h3 : dictGet entries (PyVal.str ("error")) = some (PyVal.dict inner))
    (h4 : dictGet inner (PyVal.str ("message")) = Option.none) :
    format_error s = code ++ (" ") ++ status ++ (". ") ++ ("Unknown error") := by
  simp only [format_error, format_errorWith, h1, h2, h3, h4]
  rfl

/-- Witness for C10 at the payload with an empty error dictionary. -/
theorem c10_missing_message_witness :
    format_error ("429 RESOURCE_EXHAUSTED. \x7b\x27error\x27: \x7b\x7d\x7d") =
      ("429 RESOURCE_EXHAUSTED. Unknown error") :=
  c10_missing_message ("429 RESOURCE_EXHAUSTED. \x7b\x27error\x27: \x7b\x7d\x7d")
    ("429") ("RESOURCE_EXHAUSTED") ("\x7b\x27error\x27: \x7b\x7d\x7d")
    [(PyVal.str ("error"), PyVal.dict [])] [] rfl rfl rfl rfl

end GeminiRotate
